import Mathlib

set_option maxHeartbeats 1000000
set_option maxRecDepth 8000

/-!
Verification of the record-composition and dispatch core of the `logger`
repository (files `logger/logger.go`, `logger/logrus.go` and the unnamed
`LogMessage` serialization file) against its natural-language specification.

The Go code is shallowly embedded: Go maps become association lists with
unique keys; map iteration (whose order Go leaves unspecified) becomes an
explicit enumeration parameter constrained to be a permutation of the map's
entries; `interface` values stored in field maps become the tagged type
`GoValue`; `time.Time` becomes `GoTime` (absolute seconds since the year-1
epoch, nanoseconds, and a zone offset) together with an executable model of
`Format("2006-01-02T15:04:05.000000Z0700")`.
-/

namespace Rosetta

/-- Tagged model of the Go `interface` values a caller can place in a field
map: untyped nil, booleans, integers and strings (`fmt` renders each with
`%v`). -/
inductive GoValue where
  | null
  | bool (b : Bool)
  | int (n : Int)
  | str (s : String)
  deriving DecidableEq

/-! String constants from `logger.go` (`const` block). -/

def application : String := "astra"

def correlationId : String := "correlation-id"

def clientIp : String := "client-ip"

def endTime : String := "end-time"

def latency : String := "latency"

def latencyUnit : String := "latency-unit"

def loggerContext : String := "rosetta-context"

def method : String := "method"

def nilLogMessage : String := "rosetta is called with nil log message"

def ns : String := "ns"

def path : String := "path"

def protocol : String := "protocol"

def query : String := "query"

def startTime : String := "start-time"

def status : String := "status"

def userAgent : String := "user-agent"

def DebugLevel : String := "DEBUG"

def InfoLevel : String := "INFO"

def WarnLevel : String := "WARN"

def WarningLevel : String := "WARNING"

def ErrorLevel : String := "ERROR"

def FatalLevel : String := "FATAL"

def development : String := "DEVELOPMENT"

def dev : String := "DEV"

def UtcTimeFormat : String := "2006-01-02T15:04:05.000000Z0700"

/-- Model of Go `time.Time`: `sec` counts seconds since the Go wall-clock
epoch 0001-01-01T00:00:00 UTC, `nsec` the nanosecond part, `offset` the
zone offset east of UTC in seconds (the location only affects display). -/
structure GoTime where
  sec : Int
  nsec : Nat
  offset : Int
  deriving DecidableEq

/-- Go `Time.IsZero`: the wall clock reads January 1, year 1, 00:00:00;
the location is irrelevant. -/
def GoTime.IsZero (t : GoTime) : Prop := t.sec = 0 ∧ t.nsec = 0

instance (t : GoTime) : Decidable t.IsZero :=
  inferInstanceAs (Decidable (_ ∧ _))

/-- Go `Time.UTC`: same instant, zone offset zero. -/
def GoTime.UTC (t : GoTime) : GoTime := { t with offset := 0 }

def pad2 (n : Nat) : String := if n < 10 then "0" ++ toString n else toString n

def pad4 (n : Nat) : String :=
  if n < 10 then "000" ++ toString n
  else if n < 100 then "00" ++ toString n
  else if n < 1000 then "0" ++ toString n
  else toString n

def pad6 (n : Nat) : String :=
  let s := toString n
  if s.length < 6 then String.mk (List.replicate (6 - s.length) '0') ++ s else s

/-- Proleptic Gregorian date of a day count since 0001-01-01 (day 0). -/
def civilFromDays (d : Int) : Int × Nat × Nat :=
  let z := d + 306
  let era := z.ediv 146097
  let doe := (z - era * 146097).toNat
  let yoe := (doe - doe / 1460 + doe / 36524 - doe / 146096) / 365
  let doy := doe - (365 * yoe + yoe / 4 - yoe / 100)
  let mp := (5 * doy + 2) / 153
  let dd := doy - (153 * mp + 2) / 5 + 1
  let m := if mp < 10 then mp + 3 else mp - 9
  let y := era * 400 + (yoe : Int)
  (if m ≤ 2 then y + 1 else y, m, dd)

def yearString (y : Int) : String :=
  if y < 0 then "-" ++ pad4 (-y).toNat else pad4 y.toNat

/-- The `Z0700` verb: `Z` for a zero offset, otherwise a signed `hhmm`. -/
def zoneSuffix (offset : Int) : String :=
  if offset = 0 then "Z"
  else
    (if offset < 0 then "-" else "+")
      ++ pad2 (offset.natAbs / 3600) ++ pad2 ((offset.natAbs / 60) % 60)

/-- Model of Go `t.Format(UtcTimeFormat)`, i.e. of the fixed layout
`2006-01-02T15:04:05.000000Z0700`: the wall clock in the time's own zone
(seconds plus offset), microseconds truncated from `nsec`, then the zone
suffix.  No conversion to UTC happens here; `Format` uses the location the
`time.Time` value carries. -/
def formatGoTime (t : GoTime) : String :=
  let lo := t.sec + t.offset
  let days := lo.ediv 86400
  let sod := (lo.emod 86400).toNat
  let ymd := civilFromDays days
  yearString ymd.1 ++ "-" ++ pad2 ymd.2.1 ++ "-" ++ pad2 ymd.2.2 ++ "T"
    ++ pad2 (sod / 3600) ++ ":" ++ pad2 ((sod % 3600) / 60) ++ ":"
    ++ pad2 (sod % 60) ++ "." ++ pad6 (t.nsec / 1000) ++ zoneSuffix t.offset

/-- The `LogMessage` struct; Go zero values are the field defaults. -/
structure LogMessage where
  ClientIP : String := ""
  CorrelationId : String := ""
  StartTime : GoTime := ⟨0, 0, 0⟩
  EndTime : GoTime := ⟨0, 0, 0⟩
  LatencyNanoSeconds : Int := 0
  LoggerContext : String := ""
  Method : String := ""
  Path : String := ""
  Protocol : String := ""
  Query : String := ""
  Status : Int := 0
  UserAgent : String := ""
  Message : String := ""
  AdditionalProperties : List (String × GoValue) := []
  deriving DecidableEq

/-! Go map model: association lists; `m[k] = v` replaces the first entry
with key `k` in place, or appends a fresh entry. -/

def mapInsert (m : List (String × α)) (k : String) (v : α) :
    List (String × α) :=
  match m with
  | [] => [(k, v)]
  | (k0, v0) :: rest =>
    if k0 = k then (k0, v) :: rest else (k0, v0) :: mapInsert rest k v

def mapFind? (m : List (String × α)) (k : String) : Option α :=
  match m with
  | [] => none
  | (k0, v0) :: rest => if k0 = k then some v0 else mapFind? rest k

/-- The `for k, v := range src { dst[k] = v }` copy loop, started from an
empty map. -/
def mapCopy (m : List (String × α)) : List (String × α) :=
  m.foldl (fun acc kv => mapInsert acc kv.1 kv.2) []

/-- `Fields.CloneWith` from `logrus.go`: copy the receiver, then set one
key. -/
def CloneWith (fields : List (String × α)) (name : String) (value : α) :
    List (String × α) :=
  mapInsert (mapCopy fields) name value

/-- `Fields.CloneWithAll` from `logrus.go`: copy the receiver, then write
every entry of `otherFields` over it. -/
def CloneWithAll (fields otherFields : List (String × α)) :
    List (String × α) :=
  otherFields.foldl (fun acc kv => mapInsert acc kv.1 kv.2) (mapCopy fields)

/-! Byte-wise string comparison and the `sort.Strings` model.  Go sorts the
UTF-8 bytes; comparing the code points gives the same order, and the
comparator below is structurally recursive so that concrete witnesses
evaluate inside the kernel. -/

def charListLe : List Char → List Char → Bool
  | [], _ => true
  | _ :: _, [] => false
  | a :: as, b :: bs =>
    if a.val.toNat < b.val.toNat then true
    else if b.val.toNat < a.val.toNat then false
    else charListLe as bs

def strLe (a b : String) : Bool := charListLe a.data b.data

def insertSorted (k : String) : List String → List String
  | [] => [k]
  | x :: xs => if strLe k x then k :: x :: xs else x :: insertSorted k xs

/-- `sort.Strings`, as an insertion sort under `strLe`. -/
def sortStrings : List String → List String
  | [] => []
  | x :: xs => insertSorted x (sortStrings xs)

/-- The key slice `SerializeFields` builds and sorts (`sort.Strings(keys)`);
collecting the keys in the map's own entry order and sorting them yields
the same list for every iteration order of the map. -/
def sortedKeys (props : List (String × GoValue)) : List String :=
  sortStrings (props.map Prod.fst)

/-- The `%v` rendering of an extra value, with the quoting branch of
`SerializeFields`: a nil interface (`reflect.TypeOf == nil`, also what a
missing key would yield) prints quoted as `"<nil>"`, a string prints
quoted, everything else prints bare. -/
def renderExtraValue : Option GoValue → String
  | none => "\"<nil>\""
  | some GoValue.null => "\"<nil>\""
  | some (GoValue.str s) => "\"" ++ s ++ "\""
  | some (GoValue.int n) => toString n
  | some (GoValue.bool b) => toString b

/-- The well-known-attribute section of `SerializeFields` (lines 61-94 of
the serialization file), as `(key, rendered value)` pairs in the source's
emission order; a pair is present exactly when the attribute is non-zero.
The rendered value carries its own quotes where the `Sprintf` format is
`%v="%v"`. -/
def knownFieldPairs (l : LogMessage) : List (String × String) :=
  (if l.LoggerContext ≠ "" then [(loggerContext, "\"" ++ l.LoggerContext ++ "\"")] else [])
    ++ (if l.Status ≠ 0 then [(status, toString l.Status)] else [])
    ++ (if l.Method ≠ "" then [(method, "\"" ++ l.Method ++ "\"")] else [])
    ++ (if l.Protocol ≠ "" then [(protocol, "\"" ++ l.Protocol ++ "\"")] else [])
    ++ (if l.Path ≠ "" then [(path, "\"" ++ l.Path ++ "\"")] else [])
    ++ (if l.Query ≠ "" then [(query, "\"" ++ l.Query ++ "\"")] else [])
    ++ (if l.ClientIP ≠ "" then [(clientIp, "\"" ++ l.ClientIP ++ "\"")] else [])
    ++ (if l.UserAgent ≠ "" then [(userAgent, "\"" ++ l.UserAgent ++ "\"")] else [])
    ++ (if ¬ l.StartTime.IsZero then [(startTime, "\"" ++ formatGoTime l.StartTime ++ "\"")] else [])
    ++ (if ¬ l.EndTime.IsZero then [(endTime, "\"" ++ formatGoTime l.EndTime ++ "\"")] else [])
    ++ (if l.LatencyNanoSeconds ≠ 0 then
          [(latencyUnit, "\"" ++ ns ++ "\""), (latency, toString l.LatencyNanoSeconds)]
        else [])

/-- The extra-property section of `SerializeFields` (lines 96-109): keys
sorted ascending, each value looked up in the map and rendered by type. -/
def extraFieldPairs (l : LogMessage) : List (String × String) :=
  (sortedKeys l.AdditionalProperties).map
    (fun k => (k, renderExtraValue (mapFind? l.AdditionalProperties k)))

/-- The global-tag section (lines 111-115): each tag of the enumeration,
quoted.  The enumeration order of the Go map is a parameter. -/
def tagFieldPairs (gtags : List (String × String)) : List (String × String) :=
  gtags.map (fun kv => (kv.1, "\"" ++ kv.2 ++ "\""))

/-- All `(key, rendered value)` pairs `SerializeFields` emits, in emission
order. -/
def allFieldPairs (l : LogMessage) (gtags : List (String × String))
    (skipGlobalTags : Bool) : List (String × String) :=
  knownFieldPairs l ++ extraFieldPairs l
    ++ (if skipGlobalTags then [] else tagFieldPairs gtags)

def renderPair (kv : String × String) : String := kv.1 ++ "=" ++ kv.2

def serializeFieldsList (l : LogMessage) (gtags : List (String × String))
    (skipGlobalTags : Bool) : List String :=
  (allFieldPairs l gtags skipGlobalTags).map renderPair

/-- `LogMessage.SerializeFields`: the space-joined field string.  `gtags`
is the enumeration of `getGlobalTags()` the `range` loop happens to
produce. -/
def SerializeFields (l : LogMessage) (gtags : List (String × String))
    (skipGlobalTags : Bool) : String :=
  String.intercalate " " (serializeFieldsList l gtags skipGlobalTags)

/-- `os.Args[0]` stripped to its last path segment,
`tempComponent[strings.LastIndex(tempComponent, "/")+1:]`. -/
def componentOf (arg0 : String) : String := (arg0.splitOn "/").getLastD ""

/-- The entries of the map `getGlobalTags` builds: the fixed application
tag and the component derived from the process name. -/
def getGlobalTagsList (arg0 : String) : List (String × String) :=
  [("application", application), ("component", componentOf arg0)]

/-- A `range` enumeration of the global-tag map: any permutation of its
entries. -/
def validTagEnum (gtags : List (String × String)) (arg0 : String) : Prop :=
  gtags.Perm (getGlobalTagsList arg0)

/-- A `range` enumeration of a record's extra-property map: any
permutation of its entries. -/
def validExtrasEnum (e : List (String × GoValue)) (l : LogMessage) : Prop :=
  e.Perm l.AdditionalProperties

/-- Typed zap field values as this package constructs them: `zap.String`,
`zap.Int`/`zap.Int64`, and `zap.Any` for the pass-through of extra
properties. -/
inductive ZapValue where
  | str (s : String)
  | int (n : Int)
  | any (v : GoValue)
  deriving DecidableEq

/-- The well-known-attribute section of `getZapFields` (logger.go lines
238-271), mirroring `knownFieldPairs` with typed values. -/
def knownZapFields (l : LogMessage) : List (String × ZapValue) :=
  (if l.LoggerContext ≠ "" then [(loggerContext, ZapValue.str l.LoggerContext)] else [])
    ++ (if l.Status ≠ 0 then [(status, ZapValue.int l.Status)] else [])
    ++ (if l.Method ≠ "" then [(method, ZapValue.str l.Method)] else [])
    ++ (if l.Protocol ≠ "" then [(protocol, ZapValue.str l.Protocol)] else [])
    ++ (if l.Path ≠ "" then [(path, ZapValue.str l.Path)] else [])
    ++ (if l.Query ≠ "" then [(query, ZapValue.str l.Query)] else [])
    ++ (if l.ClientIP ≠ "" then [(clientIp, ZapValue.str l.ClientIP)] else [])
    ++ (if l.UserAgent ≠ "" then [(userAgent, ZapValue.str l.UserAgent)] else [])
    ++ (if ¬ l.StartTime.IsZero then [(startTime, ZapValue.str (formatGoTime l.StartTime))] else [])
    ++ (if ¬ l.EndTime.IsZero then [(endTime, ZapValue.str (formatGoTime l.EndTime))] else [])
    ++ (if l.LatencyNanoSeconds ≠ 0 then
          [(latencyUnit, ZapValue.str ns), (latency, ZapValue.int l.LatencyNanoSeconds)]
        else [])

/-- `LogMessage.getZapFields`: known attributes, then the extra map in its
`range` order (`extrasEnum`), then the global-tag map in its `range` order
(`tagsEnum`). -/
def getZapFields (l : LogMessage) (extrasEnum : List (String × GoValue))
    (tagsEnum : List (String × String)) : List (String × ZapValue) :=
  knownZapFields l
    ++ extrasEnum.map (fun kv => (kv.1, ZapValue.any kv.2))
    ++ tagsEnum.map (fun kv => (kv.1, ZapValue.str kv.2))

inductive Severity where
  | debug
  | info
  | warn
  | error
  | fatal
  deriving DecidableEq

/-- One call handed to the external zap sink: a severity, a message, and
the typed fields (empty on the plain-text path, where everything is folded
into the message). -/
structure Emission where
  sev : Severity
  msg : String
  fields : List (String × ZapValue)
  deriving DecidableEq

/-- `callZapLogger`: nil records are replaced by one ERROR emission with
the fixed nil message; otherwise a development-like environment gets the
plain line `message + " " + SerializeFields(true)` and anything else gets
the message plus `getZapFields`. -/
def callZapLogger (logMessage : Option LogMessage) (sev : Severity)
    (logEnv : String) (extrasEnum : List (String × GoValue))
    (tagsEnum : List (String × String)) : List Emission :=
  match logMessage with
  | none => [⟨Severity.error, nilLogMessage, []⟩]
  | some l =>
    if logEnv = development ∨ logEnv = dev then
      [⟨sev, l.Message ++ " " ++ SerializeFields l tagsEnum true, []⟩]
    else
      [⟨sev, l.Message, getZapFields l extrasEnum tagsEnum⟩]

def infoMessage (l : LogMessage) (logEnv : String)
    (extrasEnum : List (String × GoValue))
    (tagsEnum : List (String × String)) : List Emission :=
  callZapLogger (some l) Severity.info logEnv extrasEnum tagsEnum

/-- The fluent builder `entry` of `logrus.go`: the accumulated field map. -/
structure entry where
  value : List (String × GoValue)

/-- Package-level `WithField`: a fresh entry seeded with one field. -/
def WithField (key : String) (value : GoValue) : entry := ⟨[(key, value)]⟩

/-- Method `entry.WithField`: `e.value[key] = value`, return the entry. -/
def entry.WithField (e : entry) (key : String) (value : GoValue) : entry :=
  ⟨mapInsert e.value key value⟩

/-- `entry.storeFields`: a fresh `LogMessage` with the message and a copy
of the accumulated fields. -/
def entry.storeFields (e : entry) (msg : String) : LogMessage :=
  { Message := msg, AdditionalProperties := mapCopy e.value }

/-- `entry.Info`: store the fields and dispatch at INFO. -/
def entry.Info (e : entry) (msg : String) (logEnv : String)
    (extrasEnum : List (String × GoValue))
    (tagsEnum : List (String × String)) : List Emission :=
  infoMessage (e.storeFields msg) logEnv extrasEnum tagsEnum

/-- The dynamic level an `AtomicLevel` can hold via `setLogLevel`. -/
inductive ZapLevel where
  | debug
  | info
  | warn
  | error
  | fatal
  deriving DecidableEq

/-- `zapcore.Level.String()` for the levels above. -/
def ZapLevel.string : ZapLevel → String
  | ZapLevel.debug => "debug"
  | ZapLevel.info => "info"
  | ZapLevel.warn => "warn"
  | ZapLevel.error => "error"
  | ZapLevel.fatal => "fatal"

/-- `setLogLevel`: the switch over the six recognized names; an
unrecognized name yields the error and leaves the level alone.  Returned
as `(error?, new level)` with `cur` the level held before the call. -/
def setLogLevel (level : String) (cur : ZapLevel) : Option String × ZapLevel :=
  if level = DebugLevel then (none, ZapLevel.debug)
  else if level = InfoLevel then (none, ZapLevel.info)
  else if level = WarnLevel ∨ level = WarningLevel then (none, ZapLevel.warn)
  else if level = ErrorLevel then (none, ZapLevel.error)
  else if level = FatalLevel then (none, ZapLevel.fatal)
  else (some ("unknown log level " ++ level ++ ", so log level in not set"), cur)

/-- Spec-side table of recognized severity names and the level each one
denotes. -/
def levelOfName (s : String) : Option ZapLevel :=
  if s = DebugLevel then some ZapLevel.debug
  else if s = InfoLevel then some ZapLevel.info
  else if s = WarnLevel ∨ s = WarningLevel then some ZapLevel.warn
  else if s = ErrorLevel then some ZapLevel.error
  else if s = FatalLevel then some ZapLevel.fatal
  else none

/-- Spec-side: the fixed key sequence §4.2 prescribes for the well-known
attributes. -/
def claimFixedKeyOrder : List String :=
  [loggerContext, status, method, protocol, path, query, clientIp,
   userAgent, startTime, endTime, latencyUnit, latency]

/-! Helper lemmas about the Go map model. -/

theorem mapFind?_insert (m : List (String × α)) (k k' : String) (v : α) :
    mapFind? (mapInsert m k v) k' =
      if k = k' then some v else mapFind? m k' := by
  induction m with
  | nil => simp [mapInsert, mapFind?]
  | cons hd tl ih =>
    obtain ⟨k0, v0⟩ := hd
    by_cases h : k0 = k
    · subst h
      by_cases h2 : k0 = k' <;> simp [mapInsert, mapFind?, h2]
    · by_cases h2 : k0 = k'
      · subst h2
        simp [mapInsert, mapFind?, h, Ne.symm h]
      · simp [mapInsert, mapFind?, h, h2, ih]

theorem mapFind?_append (m1 m2 : List (String × α)) (k : String) :
    mapFind? (m1 ++ m2) k =
      match mapFind? m1 k with
      | some v => some v
      | none => mapFind? m2 k := by
  induction m1 with
  | nil => simp [mapFind?]
  | cons hd tl ih =>
    obtain ⟨k0, v0⟩ := hd
    by_cases h : k0 = k <;> simp [mapFind?, h, ih]

theorem mapFind?_foldl (m : List (String × α)) (acc : List (String × α))
    (k : String) :
    mapFind? (m.foldl (fun a kv => mapInsert a kv.1 kv.2) acc) k =
      match mapFind? m.reverse k with
      | some v => some v
      | none => mapFind? acc k := by
  induction m generalizing acc with
  | nil => simp [mapFind?]
  | cons hd tl ih =>
    obtain ⟨k0, v0⟩ := hd
    rw [List.foldl_cons, ih, List.reverse_cons, mapFind?_append]
    cases h : mapFind? tl.reverse k
    · by_cases h0 : k0 = k <;> simp [mapFind?, mapFind?_insert, h, h0]
    · simp [h]

theorem mapFind?_eq_none (m : List (String × α)) (k : String)
    (h : k ∉ m.map Prod.fst) : mapFind? m k = none := by
  induction m with
  | nil => rfl
  | cons hd tl ih =>
    obtain ⟨k0, v0⟩ := hd
    simp only [List.map_cons, List.mem_cons, not_or] at h
    simp [mapFind?, Ne.symm h.1, ih h.2]

theorem mapFind?_reverse (m : List (String × α)) (k : String)
    (hnd : (m.map Prod.fst).Nodup) : mapFind? m.reverse k = mapFind? m k := by
  induction m with
  | nil => rfl
  | cons hd tl ih =>
    obtain ⟨k0, v0⟩ := hd
    simp only [List.map_cons, List.nodup_cons] at hnd
    rw [List.reverse_cons, mapFind?_append, ih hnd.2]
    by_cases h : k0 = k
    · subst h
      rw [mapFind?_eq_none tl k0 hnd.1]
      simp [mapFind?]
    · cases hfind : mapFind? tl k <;> simp [mapFind?, h, hfind]

theorem mapFind?_of_mem (m : List (String × α)) (k : String) (v : α)
    (hm : (k, v) ∈ m) (hnd : (m.map Prod.fst).Nodup) :
    mapFind? m k = some v := by
  induction m with
  | nil => cases hm
  | cons hd tl ih =>
    obtain ⟨k0, v0⟩ := hd
    simp only [List.map_cons, List.nodup_cons] at hnd
    rcases List.mem_cons.mp hm with h | h
    · obtain ⟨rfl, rfl⟩ := Prod.mk.injEq .. ▸ h
      simp [mapFind?]
    · have hk : k0 ≠ k := by
        intro e
        subst e
        exact hnd.1 (List.mem_map_of_mem Prod.fst h)
      simp [mapFind?, hk, ih h hnd.2]

/-! Helper lemmas about the byte-wise comparator and the sort. -/

theorem charListLe_total : ∀ as bs : List Char,
    charListLe as bs = true ∨ charListLe bs as = true
  | [], _ => Or.inl rfl
  | _ :: _, [] => Or.inr rfl
  | a :: as, b :: bs => by
    by_cases h1 : a.val.toNat < b.val.toNat
    · left
      simp [charListLe, h1]
    · by_cases h2 : b.val.toNat < a.val.toNat
      · right
        simp [charListLe, h2]
      · rcases charListLe_total as bs with h | h
        · left
          simp [charListLe, h1, h2, h]
        · right
          simp [charListLe, h1, h2, h]

theorem charListLe_trans : ∀ as bs cs : List Char,
    charListLe as bs = true → charListLe bs cs = true →
      charListLe as cs = true
  | [], _, _, _, _ => rfl
  | _ :: _, [], _, h1, _ => by simp [charListLe] at h1
  | _ :: _, _ :: _, [], _, h2 => by simp [charListLe] at h2
  | a :: as, b :: bs, c :: cs, h1, h2 => by
    simp only [charListLe] at h1 h2 ⊢
    by_cases hab : a.val.toNat < b.val.toNat
    · by_cases hbc : b.val.toNat < c.val.toNat
      · simp [Nat.lt_trans hab hbc]
      · by_cases hcb : c.val.toNat < b.val.toNat
        · rw [if_neg hbc, if_pos hcb] at h2
          exact absurd h2 (by simp)
        · have hac : a.val.toNat < c.val.toNat := by omega
          simp [hac]
    · by_cases hba : b.val.toNat < a.val.toNat
      · rw [if_neg hab, if_pos hba] at h1
        exact absurd h1 (by simp)
      · rw [if_neg hab, if_neg hba] at h1
        by_cases hbc : b.val.toNat < c.val.toNat
        · have hac : a.val.toNat < c.val.toNat := by omega
          simp [hac]
        · by_cases hcb : c.val.toNat < b.val.toNat
          · rw [if_neg hbc, if_pos hcb] at h2
            exact absurd h2 (by simp)
          · rw [if_neg hbc, if_neg hcb] at h2
            have hac : ¬ a.val.toNat < c.val.toNat := by omega
            have hca : ¬ c.val.toNat < a.val.toNat := by omega
            rw [if_neg hac, if_neg hca]
            exact charListLe_trans as bs cs h1 h2

theorem strLe_total (a b : String) : strLe a b = true ∨ strLe b a = true :=
  charListLe_total a.data b.data

theorem strLe_trans {a b c : String} (h1 : strLe a b = true)
    (h2 : strLe b c = true) : strLe a c = true :=
  charListLe_trans a.data b.data c.data h1 h2

theorem perm_insertSorted (k : String) :
    ∀ l : List String, (insertSorted k l).Perm (k :: l)
  | [] => List.Perm.refl _
  | x :: xs => by
    by_cases h : strLe k x
    · simp [insertSorted, h]
    · simp only [insertSorted, h, if_neg, Bool.false_eq_true, not_false_iff]
      exact ((perm_insertSorted k xs).cons x).trans (List.Perm.swap k x xs)

theorem perm_sortStrings : ∀ l : List String, (sortStrings l).Perm l
  | [] => List.Perm.refl _
  | x :: xs =>
    (perm_insertSorted x (sortStrings xs)).trans
      ((perm_sortStrings xs).cons x)

theorem mem_sortStrings {a : String} {l : List String} :
    a ∈ sortStrings l ↔ a ∈ l :=
  (perm_sortStrings l).mem_iff

theorem pairwise_insertSorted (k : String) (l : List String)
    (h : l.Pairwise (fun a b => strLe a b = true)) :
    (insertSorted k l).Pairwise (fun a b => strLe a b = true) := by
  induction l with
  | nil => simp [insertSorted]
  | cons x xs ih =>
    rw [List.pairwise_cons] at h
    by_cases hk : strLe k x
    · simp only [insertSorted, hk, if_pos]
      refine List.Pairwise.cons ?_ (List.Pairwise.cons h.1 h.2)
      intro y hy
      rcases List.mem_cons.mp hy with rfl | hy
      · exact hk
      · exact strLe_trans hk (h.1 y hy)
    · simp only [insertSorted, hk, Bool.false_eq_true, if_neg,
        not_false_iff]
      refine List.Pairwise.cons ?_ (ih h.2)
      intro y hy
      have hy' := (perm_insertSorted k xs).mem_iff.mp hy
      rcases List.mem_cons.mp hy' with rfl | hy'
      · rcases strLe_total x y with hxy | hyx
        · exact hxy
        · exact absurd hyx hk
      · exact h.1 y hy'

theorem pairwise_sortStrings : ∀ l : List String,
    (sortStrings l).Pairwise (fun a b => strLe a b = true)
  | [] => List.Pairwise.nil
  | x :: xs => pairwise_insertSorted x (sortStrings xs)
      (pairwise_sortStrings xs)

/-- Membership in a conditionally present chunk of a field list. -/
theorem mem_ite_list {α : Type} (c : Prop) [Decidable c] (xs : List α)
    (a : α) : (a ∈ if c then xs else []) ↔ c ∧ a ∈ xs := by
  split <;> simp_all

/-- The structured and plain-text serializations agree on the keys of the
well-known-attribute section. -/
theorem known_keys_zap_eq (l : LogMessage) :
    (knownZapFields l).map Prod.fst = (knownFieldPairs l).map Prod.fst := by
  unfold knownZapFields knownFieldPairs
  simp only [List.map_append, apply_ite (List.map (Prod.fst (α := String))),
    List.map_cons, List.map_nil]

/-! Claim theorems. -/

/-- Claim C2: dispatching a nil `LogMessage` at any severity, in any
environment and for any map enumerations, produces exactly one emission,
at ERROR severity, carrying the fixed nil-message indicator and no fields;
the nil record itself is never handed to the sink. -/
theorem c2_nil_record_dispatch (sev : Severity) (logEnv : String)
    (extrasEnum : List (String × GoValue))
    (tagsEnum : List (String × String)) :
    callZapLogger none sev logEnv extrasEnum tagsEnum
      = [⟨Severity.error, nilLogMessage, []⟩] := rfl

/-- Claim C4: `setLogLevel` on a recognized severity name succeeds and the
threshold becomes the named level; on any other string it returns an error
and the threshold (and hence the level name `getLevel` reports) is
unchanged. -/
theorem c4_set_level_threshold (level : String) (cur : ZapLevel) :
    (∀ lv, levelOfName level = some lv →
      setLogLevel level cur = (none, lv))
    ∧ (levelOfName level = none →
        (setLogLevel level cur).1.isSome = true
          ∧ (setLogLevel level cur).2 = cur
          ∧ ZapLevel.string (setLogLevel level cur).2
              = ZapLevel.string cur) := by
  constructor
  · intro lv hlv
    unfold levelOfName at hlv
    unfold setLogLevel
    split_ifs at hlv ⊢ <;> simp_all
  · intro h
    unfold levelOfName at h
    unfold setLogLevel
    split_ifs at h ⊢ <;> simp_all

theorem c4_set_level_threshold_witness :
    (levelOfName "BOGUS" = none)
      ∧ (setLogLevel "BOGUS" ZapLevel.info).1.isSome = true
      ∧ (setLogLevel "BOGUS" ZapLevel.info).2 = ZapLevel.info :=
  ⟨by decide,
    ((c4_set_level_threshold "BOGUS" ZapLevel.info).2 (by decide)).1,
    ((c4_set_level_threshold "BOGUS" ZapLevel.info).2 (by decide)).2.1⟩

/-- Claim C10: `setLogLevel` accepts exactly six names — DEBUG, INFO,
WARN, WARNING, ERROR, FATAL — and WARNING is an alias of WARN: both set
the WARN level, so `getLevel` reports the same name after either call. -/
theorem c10_warning_alias :
    (∀ cur, setLogLevel WarningLevel cur = (none, ZapLevel.warn)
      ∧ setLogLevel WarnLevel cur = (none, ZapLevel.warn)
      ∧ ZapLevel.string (setLogLevel WarningLevel cur).2
          = ZapLevel.string (setLogLevel WarnLevel cur).2)
    ∧ (∀ s cur, (setLogLevel s cur).1 = none ↔
        (s = DebugLevel ∨ s = InfoLevel ∨ s = WarnLevel ∨ s = WarningLevel
          ∨ s = ErrorLevel ∨ s = FatalLevel)) := by
  constructor
  · intro cur
    refine ⟨?_, ?_, ?_⟩ <;>
      simp [setLogLevel, DebugLevel, InfoLevel, WarnLevel, WarningLevel]
  · intro s cur
    unfold setLogLevel
    split_ifs with h1 h2 h3 h4 h5 <;> simp_all <;> tauto

/-- Claim C5: `CloneWithAll a b` (the merge) looks up every key to `b`'s
value when `b` holds the key and to `a`'s value otherwise, so it contains
every key of `a` and of `b`, with `b` winning on conflict.  As a pure
function of its arguments it leaves `a` and `b` themselves untouched. -/
theorem c5_clone_with_all_merge (a b : List (String × GoValue)) (k : String)
    (ha : (a.map Prod.fst).Nodup) (hb : (b.map Prod.fst).Nodup) :
    mapFind? (CloneWithAll a b) k =
      (match mapFind? b k with
       | some v => some v
       | none => mapFind? a k)
    ∧ ((mapFind? (CloneWithAll a b) k).isSome = true
        ↔ ((mapFind? a k).isSome = true ∨ (mapFind? b k).isSome = true)) := by
  have hmain : mapFind? (CloneWithAll a b) k =
      (match mapFind? b k with
       | some v => some v
       | none => mapFind? a k) := by
    unfold CloneWithAll mapCopy
    rw [mapFind?_foldl, mapFind?_foldl, mapFind?_reverse b k hb,
      mapFind?_reverse a k ha]
    cases mapFind? b k <;> cases mapFind? a k <;> simp [mapFind?]
  refine ⟨hmain, ?_⟩
  rw [hmain]
  cases mapFind? b k <;> cases mapFind? a k <;> simp

def c5a : List (String × GoValue) := [("x", GoValue.int 1), ("y", GoValue.int 2)]

def c5b : List (String × GoValue) := [("y", GoValue.int 9), ("z", GoValue.int 3)]

theorem c5_clone_with_all_merge_witness :
    ((c5a.map Prod.fst).Nodup ∧ (c5b.map Prod.fst).Nodup)
    ∧ mapFind? (CloneWithAll c5a c5b) "y" =
        (match mapFind? c5b "y" with
         | some v => some v
         | none => mapFind? c5a "y") :=
  ⟨⟨by decide, by decide⟩,
    (c5_clone_with_all_merge c5a c5b "y" (by decide) (by decide)).1⟩

def c6entry : entry :=
  (WithField "user" (GoValue.str "a1")).WithField "count" (GoValue.int 3)

/-- Claim C6 counterexample: the chained builder call in development mode
emits `done count=3 user="a1"` — the extras come out in ascending key
order (`count` before `user`) and, because the plain-text path calls
`SerializeFields(true)`, the global application/component tags are not
appended — so the line the claim prescribes is not produced. -/
theorem c6_plain_line_counterexample :
    entry.Info c6entry "done" development []
        (getGlobalTagsList "/go/bin/usersapi")
      = [⟨Severity.info, "done count=3 user=\"a1\"", []⟩]
    ∧ ("done count=3 user=\"a1\"" : String)
      ≠ "done user=\"a1\" count=3 application=\"astra\" component=\"usersapi\"" := by
  constructor
  · decide
  · decide

/-- Claim C6 (amended): the chain
`withField("user","a1").withField("count",3).info("done")` in development
mode emits the single plain line `done count=3 user="a1"`: message first,
extra fields in ascending key order with strings quoted and numbers bare,
and no global tags (the plain path passes `skipGlobalTags = true`). -/
theorem c6_plain_line_amended :
    entry.Info c6entry "done" development []
        (getGlobalTagsList "/go/bin/usersapi")
      = [⟨Severity.info, "done count=3 user=\"a1\"", []⟩] := by
  decide

def r7 : LogMessage := { AdditionalProperties := [("k", GoValue.null)] }

/-- Claim C7 counterexample: an extra field holding a nil value serializes
as `k="<nil>"` (the quoted `fmt` rendering of a nil interface), not as the
literal `k=null` the claim prescribes. -/
theorem c7_null_render_counterexample :
    SerializeFields r7 [] true = "k=\"<nil>\""
    ∧ SerializeFields r7 [] true ≠ "k=null" := by
  constructor
  · decide
  · decide

/-- Claim C7 (amended): every extra field is formatted by type — string
values quoted, integer and boolean values bare — but a nil value renders
as the quoted `"<nil>"` (Go `fmt`'s nil rendering), not as the literal
`null`. -/
theorem c7_value_format_amended (l : LogMessage) (k : String) (v : GoValue)
    (hm : (k, v) ∈ l.AdditionalProperties)
    (hnd : (l.AdditionalProperties.map Prod.fst).Nodup) :
    (k, match v with
        | GoValue.null => "\"<nil>\""
        | GoValue.bool b => toString b
        | GoValue.int n => toString n
        | GoValue.str s => "\"" ++ s ++ "\"") ∈ extraFieldPairs l := by
  have hk : k ∈ sortedKeys l.AdditionalProperties :=
    mem_sortStrings.mpr (List.mem_map_of_mem Prod.fst hm)
  have hfind : mapFind? l.AdditionalProperties k = some v :=
    mapFind?_of_mem _ _ _ hm hnd
  unfold extraFieldPairs
  refine List.mem_map.mpr ⟨k, hk, ?_⟩
  rw [hfind]
  cases v <;> rfl

theorem c7_value_format_witness :
    (("k", GoValue.null) ∈ r7.AdditionalProperties
      ∧ (r7.AdditionalProperties.map Prod.fst).Nodup)
    ∧ ("k", "\"<nil>\"") ∈ extraFieldPairs r7 :=
  ⟨⟨by decide, by decide⟩,
    c7_value_format_amended r7 "k" GoValue.null (by decide) (by decide)⟩

def gtA : List (String × String) := getGlobalTagsList "/go/bin/usersapi"

def gtB : List (String × String) :=
  [("component", componentOf "/go/bin/usersapi"), ("application", application)]

/-- Claim C1 counterexample: the global tags reach the output through a
`range` loop over a Go map, whose enumeration order is unspecified; two
permitted enumerations of the same two tags yield different
`SerializeFields(false)` strings for the same record, so byte-identical
output is not guaranteed once the global tags are included. -/
theorem c1_global_tag_order_counterexample :
    validTagEnum gtA "/go/bin/usersapi"
    ∧ validTagEnum gtB "/go/bin/usersapi"
    ∧ SerializeFields {} gtA false ≠ SerializeFields {} gtB false := by
  refine ⟨List.Perm.refl _, List.Perm.swap _ _ _, by decide⟩

/-- Claim C1 (amended): with `skipGlobalTags = true` the output is a pure
function of the record, hence byte-identical for identical records
whatever enumeration the global-tag map would have produced; the
well-known attributes that appear do so in the fixed §4.2 key order, the
extra keys are in ascending byte-wise order, and the full emission is the
known section, then the extras, then (for `skipGlobalTags = false`) the
global tags in map-enumeration order. -/
theorem c1_serialize_order_amended (l : LogMessage) (arg0 : String)
    (gt gt1 gt2 : List (String × String))
    (h : validTagEnum gt arg0) (h1 : validTagEnum gt1 arg0)
    (h2 : validTagEnum gt2 arg0) :
    SerializeFields l gt1 true = SerializeFields l gt2 true
    ∧ ((knownFieldPairs l).map Prod.fst).Sublist claimFixedKeyOrder
    ∧ ((extraFieldPairs l).map Prod.fst).Pairwise
        (fun a b => strLe a b = true)
    ∧ serializeFieldsList l gt false
        = (knownFieldPairs l).map renderPair
            ++ (extraFieldPairs l).map renderPair
            ++ (tagFieldPairs gt).map renderPair := by
  refine ⟨rfl, ?_, ?_, ?_⟩
  · have hs : ∀ (c : Prop) [inst : Decidable c]
        (xs : List (String × String)),
        ((if c then xs else []).map Prod.fst).Sublist (xs.map Prod.fst) := by
      intro c inst xs
      split
      · exact List.Sublist.refl _
      · simp
    unfold knownFieldPairs claimFixedKeyOrder
    simp only [List.map_append]
    exact ((((((((((hs _ _).append (hs _ _)).append (hs _ _)).append
      (hs _ _)).append (hs _ _)).append (hs _ _)).append (hs _ _)).append
      (hs _ _)).append (hs _ _)).append (hs _ _)).append (hs _ _)
  · have hkeys : (extraFieldPairs l).map Prod.fst
        = sortedKeys l.AdditionalProperties := by
      unfold extraFieldPairs
      rw [List.map_map,
        show (Prod.fst ∘ fun k =>
          (k, renderExtraValue (mapFind? l.AdditionalProperties k))) = id
          from rfl,
        List.map_id]
    rw [hkeys]
    exact pairwise_sortStrings _
  · simp [serializeFieldsList, allFieldPairs, List.map_append]

theorem c1_serialize_order_witness :
    validTagEnum gtA "/go/bin/usersapi"
    ∧ (SerializeFields ({} : LogMessage) gtA true
          = SerializeFields ({} : LogMessage) gtB true
       ∧ ((knownFieldPairs ({} : LogMessage)).map Prod.fst).Sublist
           claimFixedKeyOrder
       ∧ ((extraFieldPairs ({} : LogMessage)).map Prod.fst).Pairwise
           (fun a b => strLe a b = true)
       ∧ serializeFieldsList ({} : LogMessage) gtA false
           = (knownFieldPairs ({} : LogMessage)).map renderPair
               ++ (extraFieldPairs ({} : LogMessage)).map renderPair
               ++ (tagFieldPairs gtA).map renderPair) :=
  ⟨List.Perm.refl _,
    c1_serialize_order_amended {} "/go/bin/usersapi" gtA gtA gtB
      (List.Perm.refl _) (List.Perm.refl _) (List.Perm.swap _ _ _)⟩

def r3 : LogMessage := { CorrelationId := "abc" }

/-- Claim C3 counterexample: a record whose only non-zero attribute is
`CorrelationId` serializes to nothing at all — neither the plain-text nor
the structured serialization ever emits a `correlation-id` field, so the
"field present iff attribute non-zero" rule fails for `correlationId`. -/
theorem c3_correlation_id_counterexample :
    r3.CorrelationId ≠ ""
    ∧ knownFieldPairs r3 = []
    ∧ knownZapFields r3 = []
    ∧ SerializeFields r3 [] true = "" := by
  refine ⟨by decide, by decide, by decide, by decide⟩

/-- Claim C3 (amended): for the eleven well-known attributes the code
serializes — loggerContext, statusCode, method, protocol, path, query,
clientAddress, userAgent, startTime, endTime, latencyNanos — the
well-known section of both serializations contains the attribute's field
iff the attribute is not its type's zero value, and the two serializations
agree on that section's keys; `correlationId`, however, is never emitted,
whatever its value. -/
theorem c3_zero_suppression_amended (l : LogMessage) :
    ((∃ v, (loggerContext, v) ∈ knownFieldPairs l) ↔ l.LoggerContext ≠ "")
    ∧ ((∃ v, (status, v) ∈ knownFieldPairs l) ↔ l.Status ≠ 0)
    ∧ ((∃ v, (method, v) ∈ knownFieldPairs l) ↔ l.Method ≠ "")
    ∧ ((∃ v, (protocol, v) ∈ knownFieldPairs l) ↔ l.Protocol ≠ "")
    ∧ ((∃ v, (path, v) ∈ knownFieldPairs l) ↔ l.Path ≠ "")
    ∧ ((∃ v, (query, v) ∈ knownFieldPairs l) ↔ l.Query ≠ "")
    ∧ ((∃ v, (clientIp, v) ∈ knownFieldPairs l) ↔ l.ClientIP ≠ "")
    ∧ ((∃ v, (userAgent, v) ∈ knownFieldPairs l) ↔ l.UserAgent ≠ "")
    ∧ ((∃ v, (startTime, v) ∈ knownFieldPairs l) ↔ ¬ l.StartTime.IsZero)
    ∧ ((∃ v, (endTime, v) ∈ knownFieldPairs l) ↔ ¬ l.EndTime.IsZero)
    ∧ ((∃ v, (latency, v) ∈ knownFieldPairs l) ↔ l.LatencyNanoSeconds ≠ 0)
    ∧ (knownZapFields l).map Prod.fst = (knownFieldPairs l).map Prod.fst
    ∧ (∀ v, (correlationId, v) ∉ knownFieldPairs l)
    ∧ (∀ zv, (correlationId, zv) ∉ knownZapFields l) := by
  refine ⟨?_, ?_, ?_, ?_, ?_, ?_, ?_, ?_, ?_, ?_, ?_,
    known_keys_zap_eq l, ?_, ?_⟩ <;>
    simp [knownFieldPairs, knownZapFields, mem_ite_list, List.mem_append,
      loggerContext, status, method, protocol, path, query, clientIp,
      userAgent, startTime, endTime, latency, latencyUnit, correlationId]

theorem c3_zero_suppression_witness :
    ((∃ v, (loggerContext, v) ∈ knownFieldPairs r3) ↔ r3.LoggerContext ≠ "")
    ∧ (knownZapFields r3).map Prod.fst = (knownFieldPairs r3).map Prod.fst :=
  ⟨(c3_zero_suppression_amended r3).1,
    (c3_zero_suppression_amended r3).2.2.2.2.2.2.2.2.2.2.2.1⟩

def r8 : LogMessage :=
  { AdditionalProperties := [("a", GoValue.int 1), ("b", GoValue.int 2)] }

def e8 : List (String × GoValue) := [("b", GoValue.int 2), ("a", GoValue.int 1)]

/-- Claim C8 counterexample: `getZapFields` walks the extra-property map
with a `range` loop, so a permitted enumeration can list `b` before `a`,
while the plain-text serialization sorts the keys; the two serializations
then disagree on field order. -/
theorem c8_structured_order_counterexample :
    validExtrasEnum e8 r8
    ∧ validTagEnum gtA "/go/bin/usersapi"
    ∧ (getZapFields r8 e8 gtA).map Prod.fst
        ≠ (allFieldPairs r8 gtA false).map Prod.fst := by
  refine ⟨List.Perm.swap _ _ _, List.Perm.refl _, by decide⟩

/-- Claim C8 (amended): the structured serialization emits the same
multiset of field keys as the plain-text one (known attributes, extras,
global tags), and the well-known section appears in the same fixed order
in both; but the extras and global tags of the structured path come out in
Go-map-enumeration order, not in the plain path's sorted-key order. -/
theorem c8_structured_fields_amended (l : LogMessage) (arg0 : String)
    (e : List (String × GoValue)) (t gt : List (String × String))
    (he : validExtrasEnum e l) (ht : validTagEnum t arg0)
    (hgt : validTagEnum gt arg0) :
    ((getZapFields l e t).map Prod.fst).Perm
        ((allFieldPairs l gt false).map Prod.fst)
    ∧ (knownZapFields l).map Prod.fst = (knownFieldPairs l).map Prod.fst := by
  refine ⟨?_, known_keys_zap_eq l⟩
  unfold getZapFields allFieldPairs
  simp only [List.map_append]
  refine List.Perm.append (List.Perm.append ?_ ?_) ?_
  · exact known_keys_zap_eq l ▸ List.Perm.refl _
  · have hL : ((e.map (fun kv => (kv.1, ZapValue.any kv.2))).map Prod.fst)
        = e.map Prod.fst := by simp
    have hR : (extraFieldPairs l).map Prod.fst
        = sortedKeys l.AdditionalProperties := by
      unfold extraFieldPairs
      rw [List.map_map,
        show (Prod.fst ∘ fun k =>
          (k, renderExtraValue (mapFind? l.AdditionalProperties k))) = id
          from rfl,
        List.map_id]
    rw [hL, hR]
    exact (he.map Prod.fst).trans (perm_sortStrings _).symm
  · have hL : ((t.map (fun kv => (kv.1, ZapValue.str kv.2))).map Prod.fst)
        = t.map Prod.fst := by simp
    have hR : (if false then ([] : List (String × String))
          else tagFieldPairs gt).map Prod.fst = gt.map Prod.fst := by
      simp [tagFieldPairs]
    rw [hL, hR]
    exact (ht.trans hgt.symm).map Prod.fst

theorem c8_structured_fields_witness :
    validExtrasEnum e8 r8
    ∧ ((getZapFields r8 e8 gtA).map Prod.fst).Perm
        ((allFieldPairs r8 gtA false).map Prod.fst) :=
  ⟨List.Perm.swap _ _ _,
    (c8_structured_fields_amended r8 "/go/bin/usersapi" e8 gtA gtA
      (List.Perm.swap _ _ _) (List.Perm.refl _) (List.Perm.refl _)).1⟩

def t9 : GoTime := ⟨63840000000, 500, 3600⟩

def r9 : LogMessage := { StartTime := t9 }

/-- Claim C9 counterexample: a non-zero start time carrying a +01:00 zone
offset is rendered in that zone (suffix `+0100`), not converted to UTC;
the UTC rendering of the same instant appears nowhere in either
serialization. -/
theorem c9_utc_counterexample :
    ¬ r9.StartTime.IsZero
    ∧ formatGoTime r9.StartTime ≠ formatGoTime (GoTime.UTC r9.StartTime)
    ∧ (startTime, "\"" ++ formatGoTime (GoTime.UTC r9.StartTime) ++ "\"")
        ∉ allFieldPairs r9 (getGlobalTagsList "/go/bin/usersapi") false
    ∧ (startTime, ZapValue.str (formatGoTime (GoTime.UTC r9.StartTime)))
        ∉ getZapFields r9 [] (getGlobalTagsList "/go/bin/usersapi") := by
  refine ⟨by decide, by decide, by decide, by decide⟩

/-- Claim C9 (amended): a non-zero start or end time is rendered, in both
serializations, with the fixed microsecond-precision layout
`2006-01-02T15:04:05.000000Z0700` applied to the time as it stands — in
the time's own zone offset, without conversion to UTC (only the zap
timestamp encoder converts). -/
theorem c9_time_format_amended (l : LogMessage)
    (gt : List (String × String)) (skip : Bool)
    (extrasEnum : List (String × GoValue))
    (tagsEnum : List (String × String)) :
    (¬ l.StartTime.IsZero →
      (startTime, "\"" ++ formatGoTime l.StartTime ++ "\"")
          ∈ allFieldPairs l gt skip
        ∧ (startTime, ZapValue.str (formatGoTime l.StartTime))
            ∈ getZapFields l extrasEnum tagsEnum)
    ∧ (¬ l.EndTime.IsZero →
      (endTime, "\"" ++ formatGoTime l.EndTime ++ "\"")
          ∈ allFieldPairs l gt skip
        ∧ (endTime, ZapValue.str (formatGoTime l.EndTime))
            ∈ getZapFields l extrasEnum tagsEnum) := by
  constructor
  · intro h
    constructor
    · refine List.mem_append_left _ (List.mem_append_left _ ?_)
      simp [knownFieldPairs, List.mem_append, mem_ite_list, h,
        loggerContext, status, method, protocol, path, query, clientIp,
        userAgent, startTime, endTime, latency, latencyUnit]
    · refine List.mem_append_left _ (List.mem_append_left _ ?_)
      simp [knownZapFields, List.mem_append, mem_ite_list, h,
        loggerContext, status, method, protocol, path, query, clientIp,
        userAgent, startTime, endTime, latency, latencyUnit]
  · intro h
    constructor
    · refine List.mem_append_left _ (List.mem_append_left _ ?_)
      simp [knownFieldPairs, List.mem_append, mem_ite_list, h,
        loggerContext, status, method, protocol, path, query, clientIp,
        userAgent, startTime, endTime, latency, latencyUnit]
    · refine List.mem_append_left _ (List.mem_append_left _ ?_)
      simp [knownZapFields, List.mem_append, mem_ite_list, h,
        loggerContext, status, method, protocol, path, query, clientIp,
        userAgent, startTime, endTime, latency, latencyUnit]

theorem c9_time_format_witness :
    ¬ r9.StartTime.IsZero
    ∧ (startTime, "\"" ++ formatGoTime r9.StartTime ++ "\"")
        ∈ allFieldPairs r9 (getGlobalTagsList "/go/bin/usersapi") false :=
  ⟨by decide,
    ((c9_time_format_amended r9 (getGlobalTagsList "/go/bin/usersapi") false
        [] (getGlobalTagsList "/go/bin/usersapi")).1 (by decide)).1⟩

end Rosetta
